import Mathlib

/-!
Shallow embedding of parts of the `reth` blockchain-tree / storage / RPC
sources, together with proofs of the frozen claims about them.

Sources embedded:
* `crates/interfaces/src/blockchain_tree/error.rs` — error taxonomy and
  classification predicates;
* `crates/rpc/rpc-eth-api/src/helpers/block.rs` — `LoadBlock::block_with_senders`
  retry-once cache accessor;
* `crates/storage/db/src/tables/models/accounts.rs` — fixed-width key codecs
  (`BlockNumberAddress`, `AddressStorageKey`) and the `AccountBeforeTx` compact
  codec;
* `crates/evm/src/lib.rs` — `ConfigureEvmEnv::fill_block_env`.

Machine integers (`u64`) are modelled as `Nat` with explicit `< 2^64` bounds
where overflow matters; byte buffers are `List Nat`; fallible operations return
`Except`/`Option`. Error payloads whose internal structure the embedded code
never inspects (hashes, boxed errors, message strings) are modelled as `Nat`
or `String` exactly as wide as the pattern matches of the code require.
-/

namespace Reth

/-! ## Error taxonomy (`crates/interfaces/src/blockchain_tree/error.rs`) -/

/-- The `BlockchainTreeError` — structural/invariant violations of tree
bookkeeping. All seven variants from the source, payloads (`BlockNumber`,
`BlockHash`, chain ids) modelled as `Nat`. -/
inductive BlockchainTreeError where
  | PendingBlockIsFinalized (last_finalized : Nat)
  | BlockSideChainIdConsistency (chain_id : Nat)
  | CanonicalChain (block_hash : Nat)
  | BlockNumberNotFoundInChain (block_number : Nat)
  | BlockHashNotFoundInChain (block_hash : Nat)
  | BlockBufferingFailed (block_hash : Nat)
  | GenesisBlockHasNoParent
deriving DecidableEq, Repr

/-- The `BlockValidationError` is declared outside the given sources; the embedded
code pattern-matches only its `StateRoot` and `BlockPreMerge` variants and
treats every other variant through wildcards, so those others are collapsed
into a single `OtherValidation` constructor with an opaque payload. -/
inductive BlockValidationError where
  | StateRoot (err : Nat)
  | BlockPreMerge (hash : Nat)
  | OtherValidation (code : Nat)
deriving DecidableEq, Repr

/-- The `BlockExecutionError`. Its declaration is outside the given sources, but
`InsertBlockErrorKind::is_invalid_block` matches it exhaustively, which fixes
the full variant list used here. Payloads the code never inspects are opaque
`Nat`s. -/
inductive BlockExecutionError where
  | Validation (e : BlockValidationError)
  | Pruning (code : Nat)
  | LatestBlock (code : Nat)
  | CanonicalRevert (inner : Nat)
  | CanonicalCommit (inner : Nat)
  | AppendChainDoesntConnect (chain_tip : Nat) (other : Nat)
  | UnavailableForTest
  | Other (msg : Nat)
deriving DecidableEq, Repr

/-- The `ProviderError` is declared outside the given sources; the embedded code
matches only `StateRootMismatch` and `UnwindStateRootMismatch`, all other
variants being wildcard-matched and collapsed into `OtherProvider`. -/
inductive ProviderError where
  | StateRootMismatch (info : Nat)
  | UnwindStateRootMismatch (info : Nat)
  | OtherProvider (code : Nat)
deriving DecidableEq, Repr

/-- The `ConsensusError` — fully opaque to the embedded code (never destructured),
modelled with a single opaque payload. -/
structure ConsensusError where
  code : Nat
deriving DecidableEq, Repr

/-- The `CanonicalError` — all six variants from the source. -/
inductive CanonicalError where
  | Validation (e : BlockValidationError)
  | BlockchainTree (e : BlockchainTreeError)
  | Provider (e : ProviderError)
  | CanonicalRevert (msg : String)
  | CanonicalCommit (msg : String)
  | OptimisticTargetRevert (block_number : Nat)
deriving DecidableEq, Repr

/-- The `CanonicalError::is_fatal`. -/
def CanonicalError.is_fatal : CanonicalError → Bool
  | .CanonicalCommit _ => true
  | .CanonicalRevert _ => true
  | _ => false

/-- The `CanonicalError::is_block_hash_not_found`. -/
def CanonicalError.is_block_hash_not_found : CanonicalError → Bool
  | .BlockchainTree (.BlockHashNotFoundInChain _) => true
  | _ => false

/-- The `CanonicalError::optimistic_revert_block_number`. -/
def CanonicalError.optimistic_revert_block_number : CanonicalError → Option Nat
  | .OptimisticTargetRevert block_number => some block_number
  | _ => none

/-- The `InsertBlockErrorKind` — all eight variants from the source; the boxed
`Internal` error is opaque to all matches, modelled as `Nat`. -/
inductive InsertBlockErrorKind where
  | SenderRecovery
  | Consensus (e : ConsensusError)
  | Execution (e : BlockExecutionError)
  | Tree (e : BlockchainTreeError)
  | Provider (e : ProviderError)
  | Internal (e : Nat)
  | Canonical (e : CanonicalError)
  | BlockchainTree (e : BlockchainTreeError)
deriving DecidableEq, Repr

/-- The `InsertBlockErrorKind::is_tree_error`. -/
def InsertBlockErrorKind.is_tree_error : InsertBlockErrorKind → Bool
  | .Tree _ => true
  | _ => false

/-- The `InsertBlockErrorKind::is_consensus_error`. -/
def InsertBlockErrorKind.is_consensus_error : InsertBlockErrorKind → Bool
  | .Consensus _ => true
  | _ => false

/-- The `InsertBlockErrorKind::is_state_root_error`, mirroring the three-branch
match of the source. -/
def InsertBlockErrorKind.is_state_root_error : InsertBlockErrorKind → Bool
  | .Execution err =>
      match err with
      | .Validation (.StateRoot _) => true
      | _ => false
  | .Canonical err =>
      match err with
      | .Validation (.StateRoot _) => true
      | .Provider (.StateRootMismatch _) => true
      | .Provider (.UnwindStateRootMismatch _) => true
      | _ => false
  | .Provider err =>
      match err with
      | .StateRootMismatch _ => true
      | .UnwindStateRootMismatch _ => true
      | _ => false
  | _ => false

/-- The `InsertBlockErrorKind::is_invalid_block`, mirroring the source match arm
for arm (the inner matches on `BlockExecutionError`, `BlockchainTreeError` and
`CanonicalError` are exhaustive in the source and exhaustive here). -/
def InsertBlockErrorKind.is_invalid_block : InsertBlockErrorKind → Bool
  | .SenderRecovery => true
  | .Consensus _ => true
  | .Execution err =>
      match err with
      | .Validation _ => true
      | .LatestBlock _ => false
      | .Pruning _ => false
      | .CanonicalRevert _ => false
      | .CanonicalCommit _ => false
      | .AppendChainDoesntConnect _ _ => false
      | .UnavailableForTest => false
      | .Other _ => false
  | .Tree err =>
      match err with
      | .PendingBlockIsFinalized _ => true
      | .BlockSideChainIdConsistency _ => false
      | .CanonicalChain _ => false
      | .BlockNumberNotFoundInChain _ => false
      | .BlockHashNotFoundInChain _ => false
      | .BlockBufferingFailed _ => false
      | .GenesisBlockHasNoParent => false
  | .Provider _ => false
  | .Internal _ => false
  | .Canonical err =>
      match err with
      | .BlockchainTree _ => false
      | .CanonicalCommit _ => false
      | .CanonicalRevert _ => false
      | .OptimisticTargetRevert _ => false
      | .Validation _ => true
      | .Provider _ => false
  | .BlockchainTree _ => false

/-- The `InsertBlockErrorKind::is_block_pre_merge`. -/
def InsertBlockErrorKind.is_block_pre_merge : InsertBlockErrorKind → Bool
  | .Execution (.Validation (.BlockPreMerge _)) => true
  | _ => false

/-- The `InsertBlockErrorKind::is_execution_error`. -/
def InsertBlockErrorKind.is_execution_error : InsertBlockErrorKind → Bool
  | .Execution _ => true
  | _ => false

/-- The `InsertBlockErrorKind::is_internal`. -/
def InsertBlockErrorKind.is_internal : InsertBlockErrorKind → Bool
  | .Internal _ => true
  | _ => false

/-- The `InsertBlockErrorKind::as_tree_error`. -/
def InsertBlockErrorKind.as_tree_error : InsertBlockErrorKind → Option BlockchainTreeError
  | .Tree err => some err
  | _ => none

/-- The `InsertBlockErrorKind::as_consensus_error`. -/
def InsertBlockErrorKind.as_consensus_error : InsertBlockErrorKind → Option ConsensusError
  | .Consensus err => some err
  | _ => none

/-- The `InsertBlockErrorKind::as_execution_error`. -/
def InsertBlockErrorKind.as_execution_error : InsertBlockErrorKind → Option BlockExecutionError
  | .Execution err => some err
  | _ => none

/-! ## `InsertBlockError` (same source file) -/

/-- The `SealedBlock` — the embedded code only moves it around and (in `Debug`
formatting) reads `hash()`, `number`, `parent_hash` and `body.len()`; those
fields suffice for the embedding. -/
structure SealedBlock where
  number : Nat
  parent_hash : Nat
  hash : Nat
  body : List Nat
deriving DecidableEq, Repr

/-- The `InsertBlockErrorData` — the boxed payload of `InsertBlockError`
(`Box` is the identity in the embedding). -/
structure InsertBlockErrorData where
  block : SealedBlock
  kind : InsertBlockErrorKind
deriving DecidableEq, Repr

/-- The `InsertBlockError` — always carries the offending block and its
classification. -/
structure InsertBlockError where
  inner : InsertBlockErrorData
deriving DecidableEq, Repr

/-- The `InsertBlockErrorData::new`. -/
def InsertBlockErrorData.new (block : SealedBlock) (kind : InsertBlockErrorKind) :
    InsertBlockErrorData :=
  { block := block, kind := kind }

/-- The `InsertBlockErrorData::boxed` (boxing is the identity here). -/
def InsertBlockErrorData.boxed (block : SealedBlock) (kind : InsertBlockErrorKind) :
    InsertBlockErrorData :=
  InsertBlockErrorData.new block kind

/-- The `InsertBlockError::new`. -/
def InsertBlockError.new (block : SealedBlock) (kind : InsertBlockErrorKind) :
    InsertBlockError :=
  { inner := InsertBlockErrorData.boxed block kind }

/-- The `InsertBlockError::into_block`. -/
def InsertBlockError.into_block (e : InsertBlockError) : SealedBlock :=
  e.inner.block

/-- The `InsertBlockError::kind`. -/
def InsertBlockError.kind (e : InsertBlockError) : InsertBlockErrorKind :=
  e.inner.kind

/-- The `InsertBlockError::block`. -/
def InsertBlockError.block (e : InsertBlockError) : SealedBlock :=
  e.inner.block

/-- The `InsertBlockError::split`. -/
def InsertBlockError.split (e : InsertBlockError) : SealedBlock × InsertBlockErrorKind :=
  (e.inner.block, e.inner.kind)

/-! ## Read-side retry accessor
(`crates/rpc/rpc-eth-api/src/helpers/block.rs`, `LoadBlock::block_with_senders`) -/

/-- The `BlockNumberOrTag` (alloy), as consumed by `BlockId::is_pending` /
`BlockId::is_latest`. -/
inductive BlockNumberOrTag where
  | Latest
  | Finalized
  | Safe
  | Earliest
  | Pending
  | Number (n : Nat)
deriving DecidableEq, Repr

/-- The `BlockId` (alloy): either an explicit hash or a number/tag. -/
inductive BlockId where
  | Hash (h : Nat)
  | Number (t : BlockNumberOrTag)
deriving DecidableEq, Repr

/-- The `BlockId::is_pending`. -/
def BlockId.is_pending : BlockId → Bool
  | .Number .Pending => true
  | _ => false

/-- The `BlockId::is_latest`. -/
def BlockId.is_latest : BlockId → Bool
  | .Number .Latest => true
  | _ => false

/-- The environment `block_with_senders` runs in: the provider and cache
calls it makes, as response oracles. `Blk` stands for
`Arc<SealedBlockWithSenders>`, `Rcpt` for the receipts of a locally built
pending block, `Err` for the cache/provider error type. The cache may answer
differently on successive calls (a reorg can change it between calls), so
`cache_get` is indexed by the hash asked for and the zero-based index of the
call. -/
structure LoadBlockEnv (Blk Rcpt Err : Type) where
  pending_block_with_senders : Except Err (Option Blk)
  local_pending_block : Except Err (Option (Blk × Rcpt))
  block_hash_for_id : BlockId → Except Err (Option Nat)
  cache_get : Nat → Nat → Except Err (Option Blk)

/-- The `for _ in 0..=max_retries` cache-fetch loop of `block_with_senders`:
`remaining` iterations are left, `calls` cache calls were already made.
Returns the loop result together with the total number of cache calls.
Falling out of the loop returns `Ok(None)`. -/
def cacheFetchLoop {Blk Err : Type} (cache : Nat → Except Err (Option Blk))
    (latest : Bool) : Nat → Nat → Except Err (Option Blk) × Nat
  | calls, 0 => (Except.ok none, calls)
  | calls, remaining + 1 =>
    match cache calls with
    | Except.error e => (Except.error e, calls + 1)
    | Except.ok (some b) => (Except.ok (some b), calls + 1)
    | Except.ok none =>
      if latest then cacheFetchLoop cache latest (calls + 1) remaining
      else (Except.ok none, calls + 1)

/-- The `LoadBlock::block_with_senders`, with `max_retries = 1` (so the loop body
runs at most twice). The second component counts the cache calls made. -/
def block_with_senders {Blk Rcpt Err : Type} (env : LoadBlockEnv Blk Rcpt Err)
    (block_id : BlockId) : Except Err (Option Blk) × Nat :=
  if block_id.is_pending then
    match env.pending_block_with_senders with
    | Except.error e => (Except.error e, 0)
    | Except.ok (some b) => (Except.ok (some b), 0)
    | Except.ok none =>
      match env.local_pending_block with
      | Except.error e => (Except.error e, 0)
      | Except.ok (some (b, _)) => (Except.ok (some b), 0)
      | Except.ok none => (Except.ok none, 0)
  else
    match env.block_hash_for_id block_id with
    | Except.error e => (Except.error e, 0)
    | Except.ok none => (Except.ok none, 0)
    | Except.ok (some block_hash) =>
      cacheFetchLoop (env.cache_get block_hash) block_id.is_latest 0 2

/-! ## Storage key / value codecs
(`crates/storage/db/src/tables/models/accounts.rs`)

Byte buffers are `List Nat`; a Rust `Address` is its 20-byte slice, a
`StorageKey` its 32-byte slice. -/

/-- The `u64::to_be_bytes`: big-endian, 8 bytes. -/
def u64_to_be_bytes (n : Nat) : List Nat :=
  [n / 2 ^ 56 % 256, n / 2 ^ 48 % 256, n / 2 ^ 40 % 256, n / 2 ^ 32 % 256,
   n / 2 ^ 24 % 256, n / 2 ^ 16 % 256, n / 2 ^ 8 % 256, n % 256]

/-- The `u64::from_be_bytes`. -/
def u64_from_be_bytes (l : List Nat) : Nat :=
  l.foldl (fun acc b => acc * 256 + b) 0

/-- The `Address::from_slice` / `StorageKey::from_slice` with expected width `w`:
panics (here: `none`) unless the slice has exactly `w` bytes. -/
def fixed_bytes_from_slice (w : Nat) (l : List Nat) : Option (List Nat) :=
  if l.length = w then some l else none

/-- The `DatabaseError` — only its `Decode` variant is used by this code. -/
inductive DatabaseError where
  | Decode
deriving DecidableEq, Repr

/-- The `BlockNumberAddress`: a `BlockNumber` concatenated with an `Address`,
used as a change-set table key. -/
structure BlockNumberAddress where
  block_number : Nat
  address : List Nat
deriving DecidableEq, Repr

/-- The `Encode::encode` for `BlockNumberAddress`: 8 big-endian block-number
bytes followed by the 20 address bytes (28 bytes total). -/
def BlockNumberAddress.encode (k : BlockNumberAddress) : List Nat :=
  u64_to_be_bytes k.block_number ++ k.address

/-- The `Decode::decode` for `BlockNumberAddress`: first 8 bytes as big-endian
`u64` (`try_into` fails on a short slice), rest as the address
(`from_slice` requires exactly 20 bytes; a panic is modelled as the same
`Decode` error). -/
def BlockNumberAddress.decode (value : List Nat) : Except DatabaseError BlockNumberAddress :=
  if (value.take 8).length = 8 then
    match fixed_bytes_from_slice 20 (value.drop 8) with
    | some addr => Except.ok { block_number := u64_from_be_bytes (value.take 8), address := addr }
    | none => Except.error DatabaseError.Decode
  else
    Except.error DatabaseError.Decode

/-- The `BlockNumberAddress::range`: the half-open key range covering the
inclusive block-number range `start..=end`, with the zero address on both
bounds. The end bound `*range.end() + 1` is `u64` arithmetic in the source,
so it is taken modulo `2 ^ 64` here: at `e = 2 ^ 64 - 1` it wraps to 0 and
the produced range is empty. -/
def BlockNumberAddress.range (s e : Nat) : BlockNumberAddress × BlockNumberAddress :=
  ({ block_number := s, address := List.replicate 20 0 },
   { block_number := (e + 1) % 2 ^ 64, address := List.replicate 20 0 })

/-- Lexicographic byte-slice comparison (the derived Rust `Ord` on
`Address`/`StorageKey`, and the raw database key order on encoded keys).
For equal-length inputs this is exactly memcmp order. -/
def bytesLt : List Nat → List Nat → Bool
  | _, [] => false
  | [], _ :: _ => true
  | a :: as, b :: bs => decide (a < b) || (decide (a = b) && bytesLt as bs)

/-- The derived Rust `Ord` on `BlockNumberAddress(pub (BlockNumber, Address))`:
lexicographic on the pair, bytewise on the address. Strict order. -/
def BlockNumberAddress.lt (k1 k2 : BlockNumberAddress) : Bool :=
  decide (k1.block_number < k2.block_number) ||
    (decide (k1.block_number = k2.block_number) && bytesLt k1.address k2.address)

/-- Non-strict companion of `BlockNumberAddress.lt`. -/
def BlockNumberAddress.le (k1 k2 : BlockNumberAddress) : Bool :=
  BlockNumberAddress.lt k1 k2 || decide (k1 = k2)

/-- The `AddressStorageKey`: an `Address` concatenated with a `StorageKey`. -/
structure AddressStorageKey where
  address : List Nat
  storage_key : List Nat
deriving DecidableEq, Repr

/-- The `Encode::encode` for `AddressStorageKey`: 20 address bytes followed by
the 32 storage-key bytes (52 bytes total). -/
def AddressStorageKey.encode (k : AddressStorageKey) : List Nat :=
  k.address ++ k.storage_key

/-- The `Decode::decode` for `AddressStorageKey`: first 20 bytes as the address,
rest as the storage key (each `from_slice` demands its exact width; a panic
is modelled as the `Decode` error). -/
def AddressStorageKey.decode (value : List Nat) : Except DatabaseError AddressStorageKey :=
  match fixed_bytes_from_slice 20 (value.take 20), fixed_bytes_from_slice 32 (value.drop 20) with
  | some addr, some sk => Except.ok { address := addr, storage_key := sk }
  | _, _ => Except.error DatabaseError.Decode

/-- The `AccountBeforeTx`, parametric in the `Account` type `α`: the `Account`
`Compact` implementation lives outside the given sources, so it is passed in
as an encoder/decoder pair in the operations below. -/
structure AccountBeforeTx (α : Type) where
  address : List Nat
  info : Option α
deriving DecidableEq, Repr

/-- The `Compact::to_compact` for `AccountBeforeTx`: writes the 20 address bytes,
then the compact account when present; returns the written buffer and the
reported length `acc_len + 20`. `enc` is `Account::to_compact` (the bytes it
appends; its return value is their count). -/
def AccountBeforeTx.to_compact {α : Type} (enc : α → List Nat)
    (v : AccountBeforeTx α) : List Nat × Nat :=
  match v.info with
  | some account => (v.address ++ enc account, (enc account).length + 20)
  | none => (v.address, 0 + 20)

/-- The `Compact::from_compact` for `AccountBeforeTx`: the first 20 bytes are the
address; when `len - 20 > 0` the rest decodes as the account via
`Account::from_compact` (`dec`, also returning the unconsumed buffer). -/
def AccountBeforeTx.from_compact {α : Type} (dec : List Nat → Nat → α × List Nat)
    (buf : List Nat) (len : Nat) : AccountBeforeTx α × List Nat :=
  let address := buf.take 20
  let buf1 := buf.drop 20
  if len - 20 > 0 then
    let r := dec buf1 (len - 20)
    ({ address := address, info := some r.1 }, r.2)
  else
    ({ address := address, info := none }, buf1)

/-! ## Block environment filling (`crates/evm/src/lib.rs`) -/

/-- The header fields `fill_block_env` reads. `U256` values fit in `Nat`. -/
structure Header where
  number : Nat
  beneficiary : Nat
  timestamp : Nat
  mix_hash : Nat
  difficulty : Nat
  base_fee_per_gas : Option Nat
  gas_limit : Nat
  excess_blob_gas : Option Nat
deriving DecidableEq, Repr

/-- The revm `BlockEnv`, restricted to the fields `fill_block_env` writes.
`blob_excess_gas_and_price` keeps the excess blob gas passed to
`set_blob_excess_gas_and_price` (the derived gas price is computed outside
the given sources and is not inspected by any claim). -/
structure BlockEnv where
  number : Nat
  coinbase : Nat
  timestamp : Nat
  gas_limit : Nat
  basefee : Nat
  difficulty : Nat
  prevrandao : Option Nat
  blob_excess_gas_and_price : Option Nat
deriving DecidableEq, Repr

/-- The `ConfigureEvmEnv::fill_block_env` (default implementation): field-by-field
update of the given `BlockEnv` from the header; post-merge blocks get
`prevrandao = mix_hash` and zero difficulty, pre-merge blocks the header
difficulty and no `prevrandao`; `basefee` defaults to 0 when the header has
no base fee; blob excess gas is written only when the header carries one. -/
def fill_block_env (block_env : BlockEnv) (header : Header) (after_merge : Bool) : BlockEnv :=
  let be := { block_env with
    number := header.number
    coinbase := header.beneficiary
    timestamp := header.timestamp }
  let be :=
    if after_merge then
      { be with prevrandao := some header.mix_hash, difficulty := 0 }
    else
      { be with difficulty := header.difficulty, prevrandao := none }
  let be := { be with
    basefee := header.base_fee_per_gas.getD 0
    gas_limit := header.gas_limit }
  match header.excess_blob_gas with
  | some excess_blob_gas => { be with blob_excess_gas_and_price := some excess_blob_gas }
  | none => be

/-! ## Helper lemmas -/

/-- The cache-fetch loop makes at most `remaining` further cache calls. -/
lemma cacheFetchLoop_calls_le {Blk Err : Type} (cache : Nat → Except Err (Option Blk))
    (latest : Bool) :
    ∀ (remaining calls : Nat),
      (cacheFetchLoop cache latest calls remaining).2 ≤ calls + remaining := by
  intro remaining
  induction remaining with
  | zero => intro calls; simp [cacheFetchLoop]
  | succ r ih =>
    intro calls
    show (cacheFetchLoop cache latest calls (r + 1)).2 ≤ calls + (r + 1)
    rw [cacheFetchLoop]
    cases hc : cache calls with
    | error e => simp
    | ok ob =>
      cases ob with
      | none =>
        cases latest with
        | true =>
          simp
          have := ih (calls + 1)
          omega
        | false => simp
      | some b => simp

/-- The `u64_to_be_bytes` always produces exactly 8 bytes. -/
lemma u64_to_be_bytes_length (n : Nat) : (u64_to_be_bytes n).length = 8 := rfl

/-- Big-endian `u64` encode/decode round trip. -/
lemma u64_be_round_trip (n : Nat) (h : n < 2 ^ 64) :
    u64_from_be_bytes (u64_to_be_bytes n) = n := by
  simp only [u64_to_be_bytes, u64_from_be_bytes, List.foldl]
  omega

/-! ## Claim theorems: error taxonomy -/

/-- C1: `is_invalid_block()` returns true exactly on `SenderRecovery`,
`Consensus` errors, validation-category `Execution` errors, the
`PendingBlockIsFinalized` tree violation, and validation-category
`Canonical` errors; false on every other `InsertBlockErrorKind` value. -/
theorem C1_is_invalid_block_characterization :
    ∀ k : InsertBlockErrorKind,
      k.is_invalid_block = true ↔
        (k = InsertBlockErrorKind.SenderRecovery ∨
         (∃ e, k = InsertBlockErrorKind.Consensus e) ∨
         (∃ v, k = InsertBlockErrorKind.Execution (BlockExecutionError.Validation v)) ∨
         (∃ n, k = InsertBlockErrorKind.Tree (BlockchainTreeError.PendingBlockIsFinalized n)) ∨
         (∃ v, k = InsertBlockErrorKind.Canonical (CanonicalError.Validation v))) := by
  intro k
  cases k with
  | SenderRecovery => simp [InsertBlockErrorKind.is_invalid_block]
  | Consensus e => simp [InsertBlockErrorKind.is_invalid_block]
  | Execution e => cases e <;> simp [InsertBlockErrorKind.is_invalid_block]
  | Tree e => cases e <;> simp [InsertBlockErrorKind.is_invalid_block]
  | Provider e => simp [InsertBlockErrorKind.is_invalid_block]
  | Internal e => simp [InsertBlockErrorKind.is_invalid_block]
  | Canonical e => cases e <;> simp [InsertBlockErrorKind.is_invalid_block]
  | BlockchainTree e => simp [InsertBlockErrorKind.is_invalid_block]

/-- C2: `CanonicalError::is_fatal()` is true if and only if the value is
`CanonicalCommit(_)` or `CanonicalRevert(_)`. -/
theorem C2_is_fatal_iff_commit_or_revert :
    ∀ e : CanonicalError,
      e.is_fatal = true ↔
        ((∃ s, e = CanonicalError.CanonicalCommit s) ∨
         (∃ s, e = CanonicalError.CanonicalRevert s)) := by
  intro e
  cases e <;> simp [CanonicalError.is_fatal]

/-- C3: `is_state_root_error()` is true exactly on the state-root mismatches
reachable through the execution, canonical, and provider branches, and false
on every other `InsertBlockErrorKind` value. -/
theorem C3_is_state_root_error_characterization :
    ∀ k : InsertBlockErrorKind,
      k.is_state_root_error = true ↔
        ((∃ n, k = InsertBlockErrorKind.Execution
            (BlockExecutionError.Validation (BlockValidationError.StateRoot n))) ∨
         (∃ n, k = InsertBlockErrorKind.Canonical
            (CanonicalError.Validation (BlockValidationError.StateRoot n))) ∨
         (∃ n, k = InsertBlockErrorKind.Canonical
            (CanonicalError.Provider (ProviderError.StateRootMismatch n))) ∨
         (∃ n, k = InsertBlockErrorKind.Canonical
            (CanonicalError.Provider (ProviderError.UnwindStateRootMismatch n))) ∨
         (∃ n, k = InsertBlockErrorKind.Provider (ProviderError.StateRootMismatch n)) ∨
         (∃ n, k = InsertBlockErrorKind.Provider (ProviderError.UnwindStateRootMismatch n))) := by
  intro k
  cases k with
  | Execution e =>
    cases e with
    | Validation v => cases v <;> simp [InsertBlockErrorKind.is_state_root_error]
    | Pruning c => simp [InsertBlockErrorKind.is_state_root_error]
    | LatestBlock c => simp [InsertBlockErrorKind.is_state_root_error]
    | CanonicalRevert c => simp [InsertBlockErrorKind.is_state_root_error]
    | CanonicalCommit c => simp [InsertBlockErrorKind.is_state_root_error]
    | AppendChainDoesntConnect a b => simp [InsertBlockErrorKind.is_state_root_error]
    | UnavailableForTest => simp [InsertBlockErrorKind.is_state_root_error]
    | Other m => simp [InsertBlockErrorKind.is_state_root_error]
  | Canonical e =>
    cases e with
    | Validation v => cases v <;> simp [InsertBlockErrorKind.is_state_root_error]
    | BlockchainTree t => simp [InsertBlockErrorKind.is_state_root_error]
    | Provider p => cases p <;> simp [InsertBlockErrorKind.is_state_root_error]
    | CanonicalRevert s => simp [InsertBlockErrorKind.is_state_root_error]
    | CanonicalCommit s => simp [InsertBlockErrorKind.is_state_root_error]
    | OptimisticTargetRevert n => simp [InsertBlockErrorKind.is_state_root_error]
  | Provider p => cases p <;> simp [InsertBlockErrorKind.is_state_root_error]
  | SenderRecovery => simp [InsertBlockErrorKind.is_state_root_error]
  | Consensus e => simp [InsertBlockErrorKind.is_state_root_error]
  | Tree e => simp [InsertBlockErrorKind.is_state_root_error]
  | Internal e => simp [InsertBlockErrorKind.is_state_root_error]
  | BlockchainTree e => simp [InsertBlockErrorKind.is_state_root_error]

/-- C5: `InsertBlockError::new(b, k)` always carries the offending block:
`block()`, `kind()`, `into_block()` and `split()` return exactly the
construction arguments. -/
theorem C5_insert_block_error_round_trip :
    ∀ (b : SealedBlock) (k : InsertBlockErrorKind),
      (InsertBlockError.new b k).block = b ∧
      (InsertBlockError.new b k).kind = k ∧
      (InsertBlockError.new b k).into_block = b ∧
      (InsertBlockError.new b k).split = (b, k) := by
  intro b k
  exact ⟨rfl, rfl, rfl, rfl⟩

/-- C6: `is_block_hash_not_found()` is true exactly on
`BlockchainTree(BlockHashNotFoundInChain)`, and
`optimistic_revert_block_number()` returns `Some(n)` exactly on
`OptimisticTargetRevert(n)`. -/
theorem C6_narrow_canonical_accessors :
    ∀ e : CanonicalError,
      (e.is_block_hash_not_found = true ↔
        ∃ h, e = CanonicalError.BlockchainTree (BlockchainTreeError.BlockHashNotFoundInChain h)) ∧
      (∀ n, e.optimistic_revert_block_number = some n ↔
        e = CanonicalError.OptimisticTargetRevert n) := by
  intro e
  constructor
  · cases e with
    | BlockchainTree t => cases t <;> simp [CanonicalError.is_block_hash_not_found]
    | Validation v => simp [CanonicalError.is_block_hash_not_found]
    | Provider p => simp [CanonicalError.is_block_hash_not_found]
    | CanonicalRevert s => simp [CanonicalError.is_block_hash_not_found]
    | CanonicalCommit s => simp [CanonicalError.is_block_hash_not_found]
    | OptimisticTargetRevert n => simp [CanonicalError.is_block_hash_not_found]
  · intro n
    cases e <;> simp [CanonicalError.optimistic_revert_block_number]

/-- C7: the single-branch membership tests `is_tree_error`,
`is_consensus_error`, `is_execution_error`, `is_internal` and
`is_block_pre_merge` hold exactly on their matching variant, and the
`as_tree_error` / `as_consensus_error` / `as_execution_error` accessors
return `Some` exactly on their matching variant. -/
theorem C7_single_branch_membership_tests :
    ∀ k : InsertBlockErrorKind,
      (k.is_tree_error = true ↔ ∃ e, k = InsertBlockErrorKind.Tree e) ∧
      (k.is_consensus_error = true ↔ ∃ e, k = InsertBlockErrorKind.Consensus e) ∧
      (k.is_execution_error = true ↔ ∃ e, k = InsertBlockErrorKind.Execution e) ∧
      (k.is_internal = true ↔ ∃ e, k = InsertBlockErrorKind.Internal e) ∧
      (k.is_block_pre_merge = true ↔
        ∃ h, k = InsertBlockErrorKind.Execution
          (BlockExecutionError.Validation (BlockValidationError.BlockPreMerge h))) ∧
      (∀ e, k.as_tree_error = some e ↔ k = InsertBlockErrorKind.Tree e) ∧
      (∀ e, k.as_consensus_error = some e ↔ k = InsertBlockErrorKind.Consensus e) ∧
      (∀ e, k.as_execution_error = some e ↔ k = InsertBlockErrorKind.Execution e) := by
  intro k
  cases k with
  | Execution e =>
    cases e with
    | Validation v =>
      cases v <;>
        simp [InsertBlockErrorKind.is_tree_error, InsertBlockErrorKind.is_consensus_error,
          InsertBlockErrorKind.is_execution_error, InsertBlockErrorKind.is_internal,
          InsertBlockErrorKind.is_block_pre_merge, InsertBlockErrorKind.as_tree_error,
          InsertBlockErrorKind.as_consensus_error, InsertBlockErrorKind.as_execution_error]
    | Pruning c =>
      simp [InsertBlockErrorKind.is_tree_error, InsertBlockErrorKind.is_consensus_error,
        InsertBlockErrorKind.is_execution_error, InsertBlockErrorKind.is_internal,
        InsertBlockErrorKind.is_block_pre_merge, InsertBlockErrorKind.as_tree_error,
        InsertBlockErrorKind.as_consensus_error, InsertBlockErrorKind.as_execution_error]
    | LatestBlock c =>
      simp [InsertBlockErrorKind.is_tree_error, InsertBlockErrorKind.is_consensus_error,
        InsertBlockErrorKind.is_execution_error, InsertBlockErrorKind.is_internal,
        InsertBlockErrorKind.is_block_pre_merge, InsertBlockErrorKind.as_tree_error,
        InsertBlockErrorKind.as_consensus_error, InsertBlockErrorKind.as_execution_error]
    | CanonicalRevert c =>
      simp [InsertBlockErrorKind.is_tree_error, InsertBlockErrorKind.is_consensus_error,
        InsertBlockErrorKind.is_execution_error, InsertBlockErrorKind.is_internal,
        InsertBlockErrorKind.is_block_pre_merge, InsertBlockErrorKind.as_tree_error,
        InsertBlockErrorKind.as_consensus_error, InsertBlockErrorKind.as_execution_error]
    | CanonicalCommit c =>
      simp [InsertBlockErrorKind.is_tree_error, InsertBlockErrorKind.is_consensus_error,
        InsertBlockErrorKind.is_execution_error, InsertBlockErrorKind.is_internal,
        InsertBlockErrorKind.is_block_pre_merge, InsertBlockErrorKind.as_tree_error,
        InsertBlockErrorKind.as_consensus_error, InsertBlockErrorKind.as_execution_error]
    | AppendChainDoesntConnect a b =>
      simp [InsertBlockErrorKind.is_tree_error, InsertBlockErrorKind.is_consensus_error,
        InsertBlockErrorKind.is_execution_error, InsertBlockErrorKind.is_internal,
        InsertBlockErrorKind.is_block_pre_merge, InsertBlockErrorKind.as_tree_error,
        InsertBlockErrorKind.as_consensus_error, InsertBlockErrorKind.as_execution_error]
    | UnavailableForTest =>
      simp [InsertBlockErrorKind.is_tree_error, InsertBlockErrorKind.is_consensus_error,
        InsertBlockErrorKind.is_execution_error, InsertBlockErrorKind.is_internal,
        InsertBlockErrorKind.is_block_pre_merge, InsertBlockErrorKind.as_tree_error,
        InsertBlockErrorKind.as_consensus_error, InsertBlockErrorKind.as_execution_error]
    | Other m =>
      simp [InsertBlockErrorKind.is_tree_error, InsertBlockErrorKind.is_consensus_error,
        InsertBlockErrorKind.is_execution_error, InsertBlockErrorKind.is_internal,
        InsertBlockErrorKind.is_block_pre_merge, InsertBlockErrorKind.as_tree_error,
        InsertBlockErrorKind.as_consensus_error, InsertBlockErrorKind.as_execution_error]
  | SenderRecovery =>
    simp [InsertBlockErrorKind.is_tree_error, InsertBlockErrorKind.is_consensus_error,
      InsertBlockErrorKind.is_execution_error, InsertBlockErrorKind.is_internal,
      InsertBlockErrorKind.is_block_pre_merge, InsertBlockErrorKind.as_tree_error,
      InsertBlockErrorKind.as_consensus_error, InsertBlockErrorKind.as_execution_error]
  | Consensus e =>
    simp [InsertBlockErrorKind.is_tree_error, InsertBlockErrorKind.is_consensus_error,
      InsertBlockErrorKind.is_execution_error, InsertBlockErrorKind.is_internal,
      InsertBlockErrorKind.is_block_pre_merge, InsertBlockErrorKind.as_tree_error,
      InsertBlockErrorKind.as_consensus_error, InsertBlockErrorKind.as_execution_error]
  | Tree e =>
    simp [InsertBlockErrorKind.is_tree_error, InsertBlockErrorKind.is_consensus_error,
      InsertBlockErrorKind.is_execution_error, InsertBlockErrorKind.is_internal,
      InsertBlockErrorKind.is_block_pre_merge, InsertBlockErrorKind.as_tree_error,
      InsertBlockErrorKind.as_consensus_error, InsertBlockErrorKind.as_execution_error]
  | Provider e =>
    simp [InsertBlockErrorKind.is_tree_error, InsertBlockErrorKind.is_consensus_error,
      InsertBlockErrorKind.is_execution_error, InsertBlockErrorKind.is_internal,
      InsertBlockErrorKind.is_block_pre_merge, InsertBlockErrorKind.as_tree_error,
      InsertBlockErrorKind.as_consensus_error, InsertBlockErrorKind.as_execution_error]
  | Internal e =>
    simp [InsertBlockErrorKind.is_tree_error, InsertBlockErrorKind.is_consensus_error,
      InsertBlockErrorKind.is_execution_error, InsertBlockErrorKind.is_internal,
      InsertBlockErrorKind.is_block_pre_merge, InsertBlockErrorKind.as_tree_error,
      InsertBlockErrorKind.as_consensus_error, InsertBlockErrorKind.as_execution_error]
  | Canonical e =>
    simp [InsertBlockErrorKind.is_tree_error, InsertBlockErrorKind.is_consensus_error,
      InsertBlockErrorKind.is_execution_error, InsertBlockErrorKind.is_internal,
      InsertBlockErrorKind.is_block_pre_merge, InsertBlockErrorKind.as_tree_error,
      InsertBlockErrorKind.as_consensus_error, InsertBlockErrorKind.as_execution_error]
  | BlockchainTree e =>
    simp [InsertBlockErrorKind.is_tree_error, InsertBlockErrorKind.is_consensus_error,
      InsertBlockErrorKind.is_execution_error, InsertBlockErrorKind.is_internal,
      InsertBlockErrorKind.is_block_pre_merge, InsertBlockErrorKind.as_tree_error,
      InsertBlockErrorKind.as_consensus_error, InsertBlockErrorKind.as_execution_error]

/-! ## Claim theorem: the retry-once cache accessor -/

/-- C4: for a non-pending block id whose hash resolves, `block_with_senders`
queries the cache at most twice; a "latest" id that misses once is retried
exactly once (returning the retried block or, on a second miss, not-found
after exactly two calls); a non-"latest" miss returns not-found after a
single call; a first-call hit returns after one call; and a cache error is
returned as an error on either attempt. -/
theorem C4_block_with_senders_bounded_retry
    {Blk Rcpt Err : Type} (env : LoadBlockEnv Blk Rcpt Err) (block_id : BlockId) (h : Nat)
    (hpend : block_id.is_pending = false)
    (hhash : env.block_hash_for_id block_id = Except.ok (some h)) :
    (block_with_senders env block_id).2 ≤ 2 ∧
    (∀ b, block_id.is_latest = true →
      env.cache_get h 0 = Except.ok none →
      env.cache_get h 1 = Except.ok (some b) →
      block_with_senders env block_id = (Except.ok (some b), 2)) ∧
    (block_id.is_latest = true →
      env.cache_get h 0 = Except.ok none →
      env.cache_get h 1 = Except.ok none →
      block_with_senders env block_id = (Except.ok none, 2)) ∧
    (block_id.is_latest = false →
      env.cache_get h 0 = Except.ok none →
      block_with_senders env block_id = (Except.ok none, 1)) ∧
    (∀ b, env.cache_get h 0 = Except.ok (some b) →
      block_with_senders env block_id = (Except.ok (some b), 1)) ∧
    (∀ e, env.cache_get h 0 = Except.error e →
      block_with_senders env block_id = (Except.error e, 1)) ∧
    (∀ e, block_id.is_latest = true →
      env.cache_get h 0 = Except.ok none →
      env.cache_get h 1 = Except.error e →
      block_with_senders env block_id = (Except.error e, 2)) := by
  have hb : block_with_senders env block_id =
      cacheFetchLoop (env.cache_get h) block_id.is_latest 0 2 := by
    simp [block_with_senders, hpend, hhash]
  refine ⟨?_, ?_, ?_, ?_, ?_, ?_, ?_⟩
  · rw [hb]
    exact cacheFetchLoop_calls_le (env.cache_get h) block_id.is_latest 2 0
  · intro b hlatest hc0 hc1
    rw [hb, hlatest]
    rw [show (2 : Nat) = 1 + 1 from rfl, cacheFetchLoop, hc0]
    simp [cacheFetchLoop, hc1]
  · intro hlatest hc0 hc1
    rw [hb, hlatest]
    rw [show (2 : Nat) = 1 + 1 from rfl, cacheFetchLoop, hc0]
    simp [cacheFetchLoop, hc1]
  · intro hlatest hc0
    rw [hb, hlatest]
    rw [show (2 : Nat) = 1 + 1 from rfl, cacheFetchLoop, hc0]
    simp
  · intro b hc0
    rw [hb]
    rw [show (2 : Nat) = 1 + 1 from rfl, cacheFetchLoop, hc0]
  · intro e hc0
    rw [hb]
    rw [show (2 : Nat) = 1 + 1 from rfl, cacheFetchLoop, hc0]
  · intro e hlatest hc0 hc1
    rw [hb, hlatest]
    rw [show (2 : Nat) = 1 + 1 from rfl, cacheFetchLoop, hc0]
    simp [cacheFetchLoop, hc1]

/-- Concrete environment exercising C4: the cache misses on the first call
and hits with block `7` on the second. -/
def c4Env : LoadBlockEnv Nat Nat Nat where
  pending_block_with_senders := Except.ok none
  local_pending_block := Except.ok none
  block_hash_for_id := fun _ => Except.ok (some 5)
  cache_get := fun _ attempt => if attempt = 0 then Except.ok none else Except.ok (some 7)

/-- Witness for C4: at the concrete environment `c4Env` and the "latest"
block id, every hypothesis is discharged and the miss-then-hit scenario
returns block `7` after exactly two cache calls. -/
theorem C4_block_with_senders_bounded_retry_witness :
    (block_with_senders c4Env (BlockId.Number BlockNumberOrTag.Latest)).2 ≤ 2 ∧
    block_with_senders c4Env (BlockId.Number BlockNumberOrTag.Latest) =
      (Except.ok (some 7), 2) := by
  have main := C4_block_with_senders_bounded_retry c4Env
    (BlockId.Number BlockNumberOrTag.Latest) 5 (by rfl) (by rfl)
  exact ⟨main.1, main.2.1 7 (by rfl) (by rfl) (by rfl)⟩

/-! ## Claim theorem: codec round trips -/

/-- C8: decoding inverts encoding for the storage key and change-set codecs:
`BlockNumberAddress` and `AddressStorageKey` decode their own encodings back
exactly, and `AccountBeforeTx::from_compact` applied to the output of `to_compact`
buffer and length reconstructs the value (given a faithful `Account` compact
codec, which lives outside the embedded sources), with the `info = None` case
encoding to exactly 20 bytes. -/
theorem C8_decode_inverts_encode :
    (∀ k : BlockNumberAddress, k.block_number < 2 ^ 64 → k.address.length = 20 →
      BlockNumberAddress.decode (BlockNumberAddress.encode k) = Except.ok k) ∧
    (∀ k : AddressStorageKey, k.address.length = 20 → k.storage_key.length = 32 →
      AddressStorageKey.decode (AddressStorageKey.encode k) = Except.ok k) ∧
    (∀ (α : Type) (enc : α → List Nat) (dec : List Nat → Nat → α × List Nat),
      (∀ a rest, dec (enc a ++ rest) (enc a).length = (a, rest)) →
      (∀ a, 0 < (enc a).length) →
      ∀ v : AccountBeforeTx α, v.address.length = 20 →
        AccountBeforeTx.from_compact dec (AccountBeforeTx.to_compact enc v).1
          (AccountBeforeTx.to_compact enc v).2 = (v, []) ∧
        (v.info = none → (AccountBeforeTx.to_compact enc v).2 = 20 ∧
          (AccountBeforeTx.to_compact enc v).1.length = 20)) := by
  refine ⟨?_, ?_, ?_⟩
  · intro k hn ha
    have htake : (BlockNumberAddress.encode k).take 8 = u64_to_be_bytes k.block_number :=
      List.take_left' (u64_to_be_bytes_length k.block_number)
    have hdrop : (BlockNumberAddress.encode k).drop 8 = k.address :=
      List.drop_left' (u64_to_be_bytes_length k.block_number)
    simp [BlockNumberAddress.decode, htake, hdrop, fixed_bytes_from_slice, ha,
      u64_to_be_bytes_length, u64_be_round_trip k.block_number hn]
  · intro k ha hs
    have htake : (AddressStorageKey.encode k).take 20 = k.address :=
      List.take_left' ha
    have hdrop : (AddressStorageKey.encode k).drop 20 = k.storage_key :=
      List.drop_left' ha
    simp [AddressStorageKey.decode, htake, hdrop, fixed_bytes_from_slice, ha, hs]
  · intro α enc dec hdec hpos v ha
    cases hv : v.info with
    | some a =>
      have henc : v = { address := v.address, info := some a } := by
        rw [← hv]
      have hto : AccountBeforeTx.to_compact enc v = (v.address ++ enc a, (enc a).length + 20) := by
        rw [AccountBeforeTx.to_compact, hv]
      have htake : (v.address ++ enc a).take 20 = v.address := List.take_left' ha
      have hdrop : (v.address ++ enc a).drop 20 = enc a := List.drop_left' ha
      have hgt : (enc a).length + 20 - 20 > 0 := by have := hpos a; omega
      have hd : dec (enc a) (enc a).length = (a, []) := by
        have h0 := hdec a []
        rwa [List.append_nil] at h0
      refine ⟨?_, ?_⟩
      · rw [hto]
        simp only [AccountBeforeTx.from_compact, htake, hdrop,
          show (enc a).length + 20 - 20 = (enc a).length by omega, hd]
        rw [if_pos (show (enc a).length > 0 from hpos a)]
        exact congrArg (fun x => (x, ([] : List Nat))) henc.symm
      · intro hnone
        exact Option.noConfusion hnone
    | none =>
      have henc : v = { address := v.address, info := none } := by
        rw [← hv]
      have hto : AccountBeforeTx.to_compact enc v = (v.address, 0 + 20) := by
        rw [AccountBeforeTx.to_compact, hv]
      have htake : v.address.take 20 = v.address := by
        rw [← ha]; exact List.take_length v.address
      have hdrop : v.address.drop 20 = [] := by
        apply List.drop_eq_nil_of_le; omega
      refine ⟨?_, ?_⟩
      · rw [hto]
        simp only [AccountBeforeTx.from_compact,
          show (0 + 20 : Nat) - 20 = 0 from rfl, gt_iff_lt, Nat.lt_irrefl, if_false,
          htake, hdrop]
        exact congrArg (fun x => (x, ([] : List Nat))) henc.symm
      · intro _
        rw [hto]
        exact ⟨rfl, ha⟩

/-- Witness for C8: all three round trips evaluated at concrete keys — block
number 1 with the zero address, the zero address with a zero storage key, and
an `AccountBeforeTx` with a one-byte toy account codec. -/
theorem C8_decode_inverts_encode_witness :
    BlockNumberAddress.decode
        (BlockNumberAddress.encode
          { block_number := 1, address := List.replicate 20 0 }) =
      Except.ok { block_number := 1, address := List.replicate 20 0 } ∧
    AddressStorageKey.decode
        (AddressStorageKey.encode
          { address := List.replicate 20 0, storage_key := List.replicate 32 0 }) =
      Except.ok { address := List.replicate 20 0, storage_key := List.replicate 32 0 } ∧
    AccountBeforeTx.from_compact (fun buf _ => (buf.headD 0, buf.tail))
        (AccountBeforeTx.to_compact (fun a => [a])
          { address := List.replicate 20 0, info := some 3 }).1
        (AccountBeforeTx.to_compact (fun a => [a])
          { address := List.replicate 20 0, info := some 3 }).2 =
      ({ address := List.replicate 20 0, info := some 3 }, []) := by
  have main := C8_decode_inverts_encode
  refine ⟨?_, ?_, ?_⟩
  · exact main.1 { block_number := 1, address := List.replicate 20 0 } (by decide) (by decide)
  · exact main.2.1 { address := List.replicate 20 0, storage_key := List.replicate 32 0 }
      (by decide) (by decide)
  · exact (main.2.2 Nat (fun a => [a]) (fun buf _ => (buf.headD 0, buf.tail))
      (fun a rest => by simp) (fun a => by simp)
      { address := List.replicate 20 0, info := some 3 } (by decide)).1

/-! ## Lexicographic byte-order lemmas (for C9) -/

/-- The `bytesLt` is irreflexive. -/
lemma bytesLt_irrefl : ∀ l : List Nat, bytesLt l l = false := by
  intro l
  induction l with
  | nil => rfl
  | cons x xs ih => simp [bytesLt, ih]

/-- Comparing equal-length prefixes first: appending decomposes `bytesLt`. -/
lemma bytesLt_append :
    ∀ (x y a b : List Nat), x.length = y.length →
      bytesLt (x ++ a) (y ++ b) = if x = y then bytesLt a b else bytesLt x y := by
  intro x
  induction x with
  | nil =>
    intro y a b h
    have hy : y = [] := List.eq_nil_of_length_eq_zero h.symm
    subst hy
    simp [bytesLt]
  | cons cx xs ih =>
    intro y a b h
    cases y with
    | nil => simp at h
    | cons cy ys =>
      have hlen : xs.length = ys.length := by simpa using h
      by_cases hcx : cx = cy
      · subst hcx
        by_cases hxy : xs = ys
        · subst hxy
          simp [bytesLt, ih xs a b rfl]
        · simp [bytesLt, ih ys a b hlen, hxy]
      · simp [bytesLt, hcx]

/-- No byte string is below the all-zero string of its own length. -/
lemma bytesLt_zero_right :
    ∀ (a : List Nat) (m : Nat), a.length = m → bytesLt a (List.replicate m 0) = false := by
  intro a
  induction a with
  | nil =>
    intro m h
    subst h
    rfl
  | cons x xs ih =>
    intro m h
    cases m with
    | zero => simp at h
    | succ k =>
      have hlen : xs.length = k := by simpa using h
      simp [List.replicate, bytesLt, ih k hlen]

/-- The all-zero string is strictly below every other string of its length. -/
lemma bytesLt_zero_left :
    ∀ (a : List Nat) (m : Nat), a.length = m → a ≠ List.replicate m 0 →
      bytesLt (List.replicate m 0) a = true := by
  intro a
  induction a with
  | nil =>
    intro m h hne
    subst h
    exact absurd rfl hne
  | cons x xs ih =>
    intro m h hne
    cases m with
    | zero => simp at h
    | succ k =>
      have hlen : xs.length = k := by simpa using h
      by_cases hx : x = 0
      · subst hx
        have hxs : xs ≠ List.replicate k 0 := by
          intro hh
          exact hne (by simp [List.replicate, hh])
        simp [List.replicate, bytesLt, ih k hlen hxs]
      · simp [List.replicate, bytesLt, Nat.pos_of_ne_zero hx]

/-- Shifting the accumulator out of the big-endian fold. -/
lemma foldl_be_init (l : List Nat) :
    ∀ i : Nat, List.foldl (fun acc b => acc * 256 + b) i l =
      i * 256 ^ l.length + List.foldl (fun acc b => acc * 256 + b) 0 l := by
  induction l with
  | nil => intro i; simp
  | cons b bs ih =>
    intro i
    simp only [List.foldl, List.length_cons]
    rw [ih (i * 256 + b), ih (0 * 256 + b)]
    ring

/-- A bounded-digit big-endian value is below `256 ^ length`. -/
lemma u64_from_be_bytes_lt (l : List Nat) (hb : ∀ x ∈ l, x < 256) :
    u64_from_be_bytes l < 256 ^ l.length := by
  induction l with
  | nil => simp [u64_from_be_bytes]
  | cons b bs ih =>
    have hb' : ∀ x ∈ bs, x < 256 := fun x hx => hb x (List.mem_cons_of_mem b hx)
    have hbb : b < 256 := hb b (List.mem_cons_self b bs)
    have hbs := ih hb'
    have e1 : u64_from_be_bytes (b :: bs) =
        b * 256 ^ bs.length + u64_from_be_bytes bs := by
      simp only [u64_from_be_bytes, List.foldl]
      rw [foldl_be_init bs (0 * 256 + b)]
      ring_nf
    rw [e1, List.length_cons]
    have heq : (b + 1) * 256 ^ bs.length = b * 256 ^ bs.length + 256 ^ bs.length := by ring
    have hmul : (b + 1) * 256 ^ bs.length ≤ 256 ^ (bs.length + 1) := by
      have h2 : 256 ^ (bs.length + 1) = 256 * 256 ^ bs.length := by ring
      rw [h2]
      exact Nat.mul_le_mul_right _ (by omega)
    omega

/-- For equal-length bounded-digit strings, lexicographic byte order agrees
with the order of the big-endian values. -/
lemma bytesLt_iff_be_lt :
    ∀ (l1 l2 : List Nat), l1.length = l2.length →
      (∀ x ∈ l1, x < 256) → (∀ x ∈ l2, x < 256) →
      (bytesLt l1 l2 = true ↔ u64_from_be_bytes l1 < u64_from_be_bytes l2) := by
  intro l1
  induction l1 with
  | nil =>
    intro l2 h _ _
    have : l2 = [] := List.eq_nil_of_length_eq_zero h.symm
    subst this
    simp [bytesLt, u64_from_be_bytes]
  | cons a as ih =>
    intro l2 h hb1 hb2
    cases l2 with
    | nil => simp at h
    | cons b bs =>
      have hlen : as.length = bs.length := by simpa using h
      have hb1' : ∀ x ∈ as, x < 256 := fun x hx => hb1 x (List.mem_cons_of_mem a hx)
      have hb2' : ∀ x ∈ bs, x < 256 := fun x hx => hb2 x (List.mem_cons_of_mem b hx)
      have hv1 : u64_from_be_bytes as < 256 ^ as.length := u64_from_be_bytes_lt as hb1'
      have hv2 : u64_from_be_bytes bs < 256 ^ as.length := by
        rw [hlen]; exact u64_from_be_bytes_lt bs hb2'
      have e1 : u64_from_be_bytes (a :: as) =
          a * 256 ^ as.length + u64_from_be_bytes as := by
        simp only [u64_from_be_bytes, List.foldl]
        rw [foldl_be_init as (0 * 256 + a)]
        ring_nf
      have e2 : u64_from_be_bytes (b :: bs) =
          b * 256 ^ as.length + u64_from_be_bytes bs := by
        simp only [u64_from_be_bytes, List.foldl]
        rw [foldl_be_init bs (0 * 256 + b), hlen]
        ring_nf
      rw [e1, e2]
      simp only [bytesLt, Bool.or_eq_true, Bool.and_eq_true, decide_eq_true_eq,
        ih bs hlen hb1' hb2']
      constructor
      · rintro (hab | ⟨hab, hrec⟩)
        · have heq : (a + 1) * 256 ^ as.length =
              a * 256 ^ as.length + 256 ^ as.length := by ring
          have h2 : (a + 1) * 256 ^ as.length ≤ b * 256 ^ as.length :=
            Nat.mul_le_mul_right _ (by omega)
          omega
        · subst hab
          omega
      · intro hlt
        rcases Nat.lt_trichotomy a b with hab | hab | hab
        · exact Or.inl hab
        · subst hab
          exact Or.inr ⟨rfl, by omega⟩
        · exfalso
          have heq : (b + 1) * 256 ^ as.length =
              b * 256 ^ as.length + 256 ^ as.length := by ring
          have h2 : (b + 1) * 256 ^ as.length ≤ a * 256 ^ as.length :=
            Nat.mul_le_mul_right _ (by omega)
          omega

/-- Every byte produced by `u64_to_be_bytes` is below 256. -/
lemma u64_to_be_bytes_bounded (n : Nat) : ∀ x ∈ u64_to_be_bytes n, x < 256 := by
  intro x hx
  simp only [u64_to_be_bytes, List.mem_cons, List.not_mem_nil, or_false] at hx
  rcases hx with h | h | h | h | h | h | h | h <;> subst h <;> exact Nat.mod_lt _ (by omega)

/-- Big-endian `u64` bytes compare exactly as the numbers do. -/
lemma u64_be_lt_iff (n1 n2 : Nat) (h1 : n1 < 2 ^ 64) (h2 : n2 < 2 ^ 64) :
    bytesLt (u64_to_be_bytes n1) (u64_to_be_bytes n2) = true ↔ n1 < n2 := by
  have := bytesLt_iff_be_lt (u64_to_be_bytes n1) (u64_to_be_bytes n2)
    (by rw [u64_to_be_bytes_length, u64_to_be_bytes_length])
    (u64_to_be_bytes_bounded n1) (u64_to_be_bytes_bounded n2)
  rw [u64_be_round_trip n1 h1, u64_be_round_trip n2 h2] at this
  exact this

/-! ## Claim theorem: order-preserving fixed-width key encoding -/

/-- C9: `BlockNumberAddress::encode` is fixed-width (28 bytes: 8 big-endian
block-number bytes then the 20 address bytes) and strictly order-preserving
from the derived `(BlockNumber, Address)` order into lexicographic byte
order; consequently, whenever the end bound `e + 1` does not overflow `u64`,
the half-open range produced by `BlockNumberAddress::range` contains exactly
the keys whose block number lies in the inclusive input range. -/
theorem C9_encode_order_preserving :
    (∀ k : BlockNumberAddress, k.address.length = 20 →
      (BlockNumberAddress.encode k).length = 28 ∧
      (BlockNumberAddress.encode k).take 8 = u64_to_be_bytes k.block_number ∧
      (BlockNumberAddress.encode k).drop 8 = k.address) ∧
    (∀ k1 k2 : BlockNumberAddress,
      k1.block_number < 2 ^ 64 → k2.block_number < 2 ^ 64 →
      k1.address.length = 20 → k2.address.length = 20 →
      BlockNumberAddress.lt k1 k2 = true →
      bytesLt (BlockNumberAddress.encode k1) (BlockNumberAddress.encode k2) = true) ∧
    (∀ (s e : Nat) (k : BlockNumberAddress), k.address.length = 20 →
      e + 1 < 2 ^ 64 →
      ((BlockNumberAddress.le (BlockNumberAddress.range s e).1 k = true ∧
        BlockNumberAddress.lt k (BlockNumberAddress.range s e).2 = true) ↔
       (s ≤ k.block_number ∧ k.block_number ≤ e))) := by
  refine ⟨?_, ?_, ?_⟩
  · intro k ha
    refine ⟨?_, List.take_left' (u64_to_be_bytes_length k.block_number),
      List.drop_left' (u64_to_be_bytes_length k.block_number)⟩
    simp [BlockNumberAddress.encode, u64_to_be_bytes_length, ha]
  · intro k1 k2 h1 h2 ha1 ha2 hlt
    have hsplit := bytesLt_append (u64_to_be_bytes k1.block_number)
      (u64_to_be_bytes k2.block_number) k1.address k2.address
      (by rw [u64_to_be_bytes_length, u64_to_be_bytes_length])
    rw [BlockNumberAddress.encode, BlockNumberAddress.encode, hsplit]
    rw [BlockNumberAddress.lt, Bool.or_eq_true, Bool.and_eq_true,
      decide_eq_true_eq, decide_eq_true_eq] at hlt
    rcases hlt with hnum | ⟨heq, haddr⟩
    · have hbe : bytesLt (u64_to_be_bytes k1.block_number)
          (u64_to_be_bytes k2.block_number) = true :=
        (u64_be_lt_iff k1.block_number k2.block_number h1 h2).mpr hnum
      have hne : u64_to_be_bytes k1.block_number ≠ u64_to_be_bytes k2.block_number := by
        intro he
        rw [he, bytesLt_irrefl] at hbe
        exact Bool.noConfusion hbe
      rw [if_neg hne]
      exact hbe
    · rw [heq, if_pos rfl]
      exact haddr
  · intro s e k ha he
    rw [BlockNumberAddress.range, Nat.mod_eq_of_lt he]
    rw [BlockNumberAddress.le, BlockNumberAddress.lt, BlockNumberAddress.lt]
    simp only [Bool.or_eq_true, Bool.and_eq_true, decide_eq_true_eq]
    constructor
    · rintro ⟨hle, hlt⟩
      constructor
      · rcases hle with (hs | ⟨hs, _⟩) | heq
        · exact Nat.le_of_lt hs
        · exact Nat.le_of_eq hs
        · rw [← heq]
      · rcases hlt with hn | ⟨hn, hz⟩
        · omega
        · rw [bytesLt_zero_right k.address 20 ha] at hz
          exact Bool.noConfusion hz
    · rintro ⟨hs, he⟩
      refine ⟨?_, Or.inl (by omega)⟩
      rcases Nat.lt_or_ge s k.block_number with hlt | hge
      · exact Or.inl (Or.inl hlt)
      · have hsn : s = k.block_number := by omega
        by_cases haz : k.address = List.replicate 20 0
        · refine Or.inr ?_
          rw [hsn, ← haz]
        · exact Or.inl (Or.inr ⟨hsn, bytesLt_zero_left k.address 20 ha haz⟩)

/-- Witness for C9: the three parts evaluated at concrete keys — block
numbers 1 and 2 with the zero address, and the range `3..=5` containing the
key at height 4. -/
theorem C9_encode_order_preserving_witness :
    (BlockNumberAddress.encode { block_number := 1, address := List.replicate 20 0 }).length
      = 28 ∧
    bytesLt (BlockNumberAddress.encode { block_number := 1, address := List.replicate 20 0 })
      (BlockNumberAddress.encode { block_number := 2, address := List.replicate 20 0 }) = true ∧
    ((BlockNumberAddress.le (BlockNumberAddress.range 3 5).1
        { block_number := 4, address := List.replicate 20 7 } = true ∧
      BlockNumberAddress.lt { block_number := 4, address := List.replicate 20 7 }
        (BlockNumberAddress.range 3 5).2 = true) ↔
     (3 ≤ 4 ∧ 4 ≤ 5)) := by
  have main := C9_encode_order_preserving
  refine ⟨?_, ?_, ?_⟩
  · exact (main.1 { block_number := 1, address := List.replicate 20 0 } (by decide)).1
  · exact main.2.1 { block_number := 1, address := List.replicate 20 0 }
      { block_number := 2, address := List.replicate 20 0 }
      (by norm_num) (by norm_num) (by decide) (by decide) (by decide)
  · exact main.2.2 3 5 { block_number := 4, address := List.replicate 20 7 } (by decide)
      (by norm_num)

/-! ## Claim theorem: `fill_block_env` -/

/-- C10: `fill_block_env` sets the block environment deterministically from
the header: post-merge, `prevrandao = Some(mix_hash)` and zero difficulty;
pre-merge, the header difficulty and no `prevrandao`; `basefee` is the
header base fee or 0 when absent; `number`, `coinbase`, `timestamp` and
`gas_limit` come from the corresponding header fields; and blob excess gas
is written exactly when the header carries one (otherwise that field is left
untouched). -/
theorem C10_fill_block_env_deterministic :
    ∀ (env : BlockEnv) (h : Header) (after_merge : Bool),
      (fill_block_env env h after_merge).number = h.number ∧
      (fill_block_env env h after_merge).coinbase = h.beneficiary ∧
      (fill_block_env env h after_merge).timestamp = h.timestamp ∧
      (fill_block_env env h after_merge).gas_limit = h.gas_limit ∧
      (fill_block_env env h after_merge).basefee = h.base_fee_per_gas.getD 0 ∧
      (after_merge = true →
        (fill_block_env env h after_merge).prevrandao = some h.mix_hash ∧
        (fill_block_env env h after_merge).difficulty = 0) ∧
      (after_merge = false →
        (fill_block_env env h after_merge).difficulty = h.difficulty ∧
        (fill_block_env env h after_merge).prevrandao = none) ∧
      (∀ excess, h.excess_blob_gas = some excess →
        (fill_block_env env h after_merge).blob_excess_gas_and_price = some excess) ∧
      (h.excess_blob_gas = none →
        (fill_block_env env h after_merge).blob_excess_gas_and_price =
          env.blob_excess_gas_and_price) := by
  intro env h after_merge
  cases hebg : h.excess_blob_gas with
  | some excess =>
    cases after_merge <;>
      refine ⟨by simp [fill_block_env, hebg], by simp [fill_block_env, hebg],
        by simp [fill_block_env, hebg], by simp [fill_block_env, hebg],
        by simp [fill_block_env, hebg], ?_, ?_, ?_, ?_⟩ <;>
      intro hx <;> first
        | exact Bool.noConfusion hx
        | exact ⟨by simp [fill_block_env, hebg], by simp [fill_block_env, hebg]⟩
        | (intro hy; simp [fill_block_env, hebg] at hy ⊢; simp [hy])
        | exact Option.noConfusion hx
  | none =>
    cases after_merge <;>
      refine ⟨by simp [fill_block_env, hebg], by simp [fill_block_env, hebg],
        by simp [fill_block_env, hebg], by simp [fill_block_env, hebg],
        by simp [fill_block_env, hebg], ?_, ?_, ?_, ?_⟩ <;>
      intro hx <;> first
        | exact Bool.noConfusion hx
        | exact ⟨by simp [fill_block_env, hebg], by simp [fill_block_env, hebg]⟩
        | (intro hy; exact Option.noConfusion hy)
        | simp [fill_block_env, hebg]

/-- Witness for C10: a concrete post-merge header with a base fee and excess
blob gas filled into the default-zero environment. -/
theorem C10_fill_block_env_deterministic_witness :
    (fill_block_env
        { number := 0, coinbase := 0, timestamp := 0, gas_limit := 0, basefee := 0,
          difficulty := 9, prevrandao := none, blob_excess_gas_and_price := none }
        { number := 11, beneficiary := 12, timestamp := 13, mix_hash := 14,
          difficulty := 15, base_fee_per_gas := some 16, gas_limit := 17,
          excess_blob_gas := some 18 }
        true).prevrandao = some 14 ∧
    (fill_block_env
        { number := 0, coinbase := 0, timestamp := 0, gas_limit := 0, basefee := 0,
          difficulty := 9, prevrandao := none, blob_excess_gas_and_price := none }
        { number := 11, beneficiary := 12, timestamp := 13, mix_hash := 14,
          difficulty := 15, base_fee_per_gas := some 16, gas_limit := 17,
          excess_blob_gas := some 18 }
        true).blob_excess_gas_and_price = some 18 := by
  have main := C10_fill_block_env_deterministic
    { number := 0, coinbase := 0, timestamp := 0, gas_limit := 0, basefee := 0,
      difficulty := 9, prevrandao := none, blob_excess_gas_and_price := none }
    { number := 11, beneficiary := 12, timestamp := 13, mix_hash := 14,
      difficulty := 15, base_fee_per_gas := some 16, gas_limit := 17,
      excess_blob_gas := some 18 }
    true
  exact ⟨(main.2.2.2.2.2.1 rfl).1, main.2.2.2.2.2.2.2.1 18 rfl⟩

end Reth
